import Mathlib

/-!
Verification of the Veracode detailed-XML report normalizer
(`dojo/tools/veracode/xml_parser.py`, class `VeracodeXMLParser`).

The Python source is shallowly embedded: XML nodes become structures of
attribute association lists and child lists, fallible code (dictionary
key lookups raising `KeyError`, `int`/`float`/`datetime.strptime` raising
`ValueError`, `None.get(...)` raising `AttributeError`, `None + str`
raising `TypeError`) becomes `Except PErr`, and the Python string
operations used by the parser (`str.replace`, `in`/`str.index`, slicing,
`str.split`, `str.isdigit`, `str.lower`/`upper`, `str.startswith`) are
reimplemented over `List Char` with Python's semantics.
-/

set_option maxRecDepth 10000

deriving instance DecidableEq for Except

namespace Veracode

/-- Errors a conversion can raise: Python `KeyError` (with the missing
dictionary key), `ValueError` (failed `int`/`float`/`strptime`),
`TypeError` (`None` used in `+`), `AttributeError` (`.get` on `None`). -/
inductive PErr where
  | keyError (key : String)
  | valueError
  | typeError
  | attrError
  deriving DecidableEq, Repr

/-- A parsed timestamp, the result of a successful
`datetime.strptime(s, "%Y-%m-%d %H:%M:%S %Z")`. -/
structure DateTime where
  year : Nat
  month : Nat
  day : Nat
  hour : Nat
  minute : Nat
  second : Nat
  deriving DecidableEq, Repr, Inhabited

/-- The caller-supplied scan-run reference (`test`); the parser only
reads its `target_start` timestamp. -/
structure Test where
  target_start : DateTime
  deriving DecidableEq, Repr, Inhabited

/-- Attribute lookup on an XML node's attribute dictionary
(`xml_node.attrib.get(k)` / `xml_node.get(k)`): `none` when absent. -/
def getAttr (attrs : List (String × String)) (k : String) : Option String :=
  (attrs.find? (fun p => p.1 == k)).map Prod.snd

/-- Required attribute lookup (`xml_node.attrib[k]`): raises `KeyError k`
when the attribute is absent. -/
def reqAttr (attrs : List (String × String)) (k : String) : Except PErr String :=
  match getAttr attrs k with
  | some v => Except.ok v
  | none => Except.error (PErr.keyError k)

/-- Value of a digit list (e.g. `['4','2']` is `42`). -/
def digitsToNat (l : List Char) : Nat :=
  l.foldl (fun a c => a * 10 + (c.toNat - 48)) 0

/-- Python `str.isdigit()` (restricted to ASCII digits): true exactly
when the string is non-empty and every character is a digit. -/
def pyIsDigit (s : String) : Bool :=
  !s.data.isEmpty && s.data.all Char.isDigit

/-- Python `int(s)`: optional sign followed by at least one digit. -/
def pyInt? (s : String) : Option Int :=
  match s.data with
  | '-' :: rest =>
      if !rest.isEmpty && rest.all Char.isDigit then some (-(digitsToNat rest : Int)) else none
  | '+' :: rest =>
      if !rest.isEmpty && rest.all Char.isDigit then some (digitsToNat rest : Int) else none
  | l =>
      if !l.isEmpty && l.all Char.isDigit then some (digitsToNat l : Int) else none

/-- Python `int(s)` as a fallible conversion (`ValueError` on failure). -/
def toIntE (s : String) : Except PErr Int :=
  match pyInt? s with
  | some n => Except.ok n
  | none => Except.error PErr.valueError

/-- Whether Python `float(s)` succeeds (simple decimal literals:
optional sign, digits, optional fractional part). -/
def pyFloatOk (s : String) : Bool :=
  let l := match s.data with
    | '-' :: rest => rest
    | '+' :: rest => rest
    | l => l
  match l.splitOn '.' with
  | [a] => !a.isEmpty && a.all Char.isDigit
  | [a, b] => !(a ++ b).isEmpty && a.all Char.isDigit && b.all Char.isDigit
  | _ => false

/-- Python `str.lower()` (ASCII). -/
def pyLower (s : String) : String :=
  String.mk (s.data.map Char.toLower)

/-- Python `str.upper()` (ASCII). -/
def pyUpper (s : String) : String :=
  String.mk (s.data.map Char.toUpper)

/-- Python `str.startswith(pre)`. -/
def strStartsWith (s pre : String) : Bool :=
  pre.data.isPrefixOf s.data

/-- One pass of Python `str.replace(pat, rep)` over a character list,
left-to-right, non-overlapping; `fuel` bounds the recursion and is
instantiated with the string length (sufficient for non-empty `pat`). -/
def replaceFuel (pat rep : List Char) : Nat → List Char → List Char
  | _, [] => []
  | 0, l => l
  | Nat.succ fuel, c :: rest =>
      if pat.isPrefixOf (c :: rest) then
        rep ++ replaceFuel pat rep fuel ((c :: rest).drop pat.length)
      else
        c :: replaceFuel pat rep fuel rest

/-- Python `s.replace(pat, rep)` for non-empty `pat`. -/
def pyReplace (s pat rep : String) : String :=
  String.mk (replaceFuel pat.data rep.data s.data.length s.data)

/-- Index of the first occurrence of `pat` in a character list
(Python `str.index` / `str.find`). -/
def subIndex (pat : List Char) : List Char → Option Nat
  | [] => if pat.isEmpty then some 0 else none
  | c :: rest =>
      if pat.isPrefixOf (c :: rest) then some 0
      else (subIndex pat rest).map (· + 1)

/-- Index of the first occurrence of `pat` in `s`. -/
def subIndexS (s pat : String) : Option Nat :=
  subIndex pat.data s.data

/-- Python `pat in s` (substring containment). -/
def containsSub (s pat : String) : Bool :=
  (subIndexS s pat).isSome

/-- Python slice `s[n:]`. -/
def strDrop (s : String) (n : Nat) : String :=
  String.mk (s.data.drop n)

/-- Split a character list on a separator character, keeping empty
segments (Python `str.split(sep)` for a one-character separator). -/
def splitCh (c : Char) : List Char → List (List Char)
  | [] => [[]]
  | x :: rest =>
      match splitCh c rest with
      | [] => [[x]]
      | h :: t => if x = c then [] :: h :: t else (x :: h) :: t

/-- Python `s.split(":")`. -/
def pySplitColon (s : String) : List String :=
  (splitCh ':' s.data).map String.mk

/-- Character-token parser: leading digit run and its value. -/
def parseNatTok (l : List Char) : Option (Nat × List Char) :=
  let ds := l.takeWhile Char.isDigit
  if ds.isEmpty then none else some (digitsToNat ds, l.dropWhile Char.isDigit)

/-- Expect a single character. -/
def expectCh (c : Char) : List Char → Option (List Char)
  | [] => none
  | x :: rest => if x = c then some rest else none

/-- Models `datetime.strptime(s, "%Y-%m-%d %H:%M:%S %Z")`: digits
separated by the literal punctuation of the format, a timezone name
(`UTC`/`GMT`), and the field-range validation `strptime` performs. -/
def parseTs (s : String) : Option DateTime := do
  let (y, r1) ← parseNatTok s.data
  let r2 ← expectCh '-' r1
  let (mo, r3) ← parseNatTok r2
  let r4 ← expectCh '-' r3
  let (d, r5) ← parseNatTok r4
  let r6 ← expectCh ' ' r5
  let (h, r7) ← parseNatTok r6
  let r8 ← expectCh ':' r7
  let (mi, r9) ← parseNatTok r8
  let r10 ← expectCh ':' r9
  let (se, r11) ← parseNatTok r10
  let r12 ← expectCh ' ' r11
  let tz := String.mk r12
  if (tz = "UTC" ∨ tz = "GMT") ∧ 1 ≤ mo ∧ mo ≤ 12 ∧ 1 ≤ d ∧ d ≤ 31
      ∧ h ≤ 23 ∧ mi ≤ 59 ∧ se ≤ 61 then
    some ⟨y, mo, d, h, mi, se⟩
  else
    none

/-- `datetime.strptime` as a fallible conversion (`ValueError`). -/
def parseTsE (s : String) : Except PErr DateTime :=
  match parseTs s with
  | some d => Except.ok d
  | none => Except.error PErr.valueError

/-- `vc_severity_mapping.get(n, "Info")`. -/
def sevMap (n : Int) : String :=
  if n = 1 then "Info"
  else if n = 2 then "Low"
  else if n = 3 then "Medium"
  else if n = 4 then "High"
  else if n = 5 then "Critical"
  else "Info"

/-- Try to match `CWE-<digits>` (case-insensitive) at the head of the
character list, returning the digits' value. -/
def cweMatch (l : List Char) : Option Nat :=
  match l with
  | c1 :: c2 :: c3 :: c4 :: rest =>
      if c1.toLower = 'c' ∧ c2.toLower = 'w' ∧ c3.toLower = 'e' ∧ c4 = '-' then
        match rest.takeWhile Char.isDigit with
        | [] => none
        | ds => some (digitsToNat ds)
      else none
  | _ => none

/-- Scan for the first `CWE-<digits>` occurrence. -/
def cweScan : List Char → Option Nat
  | [] => none
  | c :: rest =>
      match cweMatch (c :: rest) with
      | some n => some n
      | none => cweScan rest

/-- `_get_cwe(val)`: first `CWE-(\d+)` match, case-insensitive. -/
def getCwe (s : String) : Option Nat :=
  cweScan s.data

/-- The normalized output record (`dojo.models.Finding`, restricted to
the fields this parser touches). Field defaults are the parser-visible
"not set by this parser" values; the persistence layer is external. -/
structure Finding where
  test : Test := ⟨⟨1970, 1, 1, 0, 0, 0⟩⟩
  title : String := ""
  description : String := ""
  severity : String := ""
  cwe : Option Int := none
  impact : String := ""
  mitigation : String := ""
  references : String := ""
  date : Option DateTime := none
  is_mitigated : Bool := false
  mitigated : Option DateTime := none
  active : Bool := true
  false_p : Bool := false
  static_finding : Bool := false
  dynamic_finding : Bool := false
  unique_id_from_tool : Option String := none
  line : Option Nat := none
  sast_source_line : Option Nat := none
  file_path : Option String := none
  sast_source_file_path : Option String := none
  sast_source_object : Option String := none
  unsaved_endpoints : List (Option String) := []
  unsaved_tags : List String := []
  component_name : Option String := none
  component_version : Option String := none
  cvssv3_score : Option String := none
  unsaved_vulnerability_ids : List String := []
  deriving DecidableEq, Repr, Inhabited

/-- A SAST/DAST `<flaw>` node (or an SCA `<vulnerability>` node):
its attribute dictionary and the attribute dictionaries of its
`mitigations/mitigation` children, in document order. -/
structure FlawNode where
  attribs : List (String × String)
  mitigations : List (List (String × String))
  deriving DecidableEq, Repr, Inhabited

/-- A `<recommendations>/<para>` node: its optional `text` attribute and
the optional `text` attributes of its `<bulletitem>` children. -/
structure ParaNode where
  text : Option String
  bullets : List (Option String)
  deriving DecidableEq, Repr, Inhabited

/-- A `<category>` node: its recommendation paragraphs and its
`cwe/staticflaws/flaw` and `cwe/dynamicflaws/flaw` descendants. -/
structure CategoryNode where
  paras : List ParaNode
  staticFlaws : List FlawNode
  dynamicFlaws : List FlawNode
  deriving DecidableEq, Repr, Inhabited

/-- An SCA `<component>` node with its `vulnerabilities/vulnerability`
children. -/
structure ComponentNode where
  attribs : List (String × String)
  vulns : List FlawNode
  deriving DecidableEq, Repr, Inhabited

/-- The report root: its attribute dictionary, the `severity/category`
nodes and the SCA `component` nodes, in document order. -/
structure Report where
  attribs : List (String × String)
  categories : List CategoryNode
  components : List ComponentNode
  deriving DecidableEq, Repr, Inhabited

/-- `category_node.find("x:recommendations/x:para")`: an absent node is
`None`, so the subsequent `.get("text")` raises `AttributeError`. -/
def firstPara (cat : CategoryNode) : Except PErr ParaNode :=
  match cat.paras with
  | [] => Except.error PErr.attrError
  | p :: _ => Except.ok p

/-- The paragraph's `text` attribute; when it is absent `.get("text")`
returns `None` and `None + "\n\n"` raises `TypeError`. -/
def paraText (p : ParaNode) : Except PErr String :=
  match p.text with
  | none => Except.error PErr.typeError
  | some t => Except.ok t

/-- `get_findings` lines 46-60: per-category mitigation text — the first
recommendation paragraph's text, two newlines, then one bullet line per
`recommendations/para/bulletitem` (a `bulletitem` without `text` makes
`"    * " + None` raise `TypeError`). -/
def mitigationTextOf (cat : CategoryNode) : Except PErr String := do
  let p ← firstPara cat
  let t ← paraText p
  let allBullets := (cat.paras.map ParaNode.bullets).flatten
  let btexts ← allBullets.mapM (fun b =>
    match b with
    | none => Except.error PErr.typeError
    | some s => Except.ok s)
  Except.ok (t ++ "\n\n" ++ String.join (btexts.map (fun s => "    * " ++ s ++ "\n")))

/-- `__xml_flaw_to_finding` lines 168-176: the date attribute selected by
`settings.USE_FIRST_SEEN`, parsed inside `try ... except`. An absent or
empty attribute is falsy, so no assignment happens and the date stays at
the `Finding` default; only a raised parse error is caught and replaced
by `test.target_start`. -/
def flawDate (useFirstSeen : Bool) (test : Test) (node : FlawNode) : Option DateTime :=
  if useFirstSeen then
    match getAttr node.attribs "date_first_occurrence" with
    | some v =>
        if v ≠ "" then
          match parseTs v with
          | some d => some d
          | none => some test.target_start
        else none
    | none => none
  else
    match getAttr node.attribs "date_last_occurrence" with
    | some v =>
        if v ≠ "" then
          match parseTs v with
          | some d => some d
          | none => some test.target_start
        else none
    | none => none

/-- Loop over `mitigations/mitigation` children (lines 192-198 and
329-335): each iteration sets `is_mitigated = True` and overwrites
`mitigated_date` with the child's parsed `date` attribute, so the last
child wins; a missing `date` raises `KeyError`, a failed parse
`ValueError`. -/
def mitLoop : Bool × Option DateTime → List (List (String × String)) →
    Except PErr (Bool × Option DateTime)
  | st, [] => Except.ok st
  | _, m :: rest => do
      let ds ← reqAttr m "date"
      let d ← parseTsE ds
      mitLoop (true, some d) rest

/-- `__xml_flaw_to_finding` lines 178-201: mitigation status resolution
for SAST/DAST flaws. -/
def flawMitigation (node : FlawNode) : Except PErr (Bool × Option DateTime) :=
  match getAttr node.attribs "mitigation_status" with
  | some ms =>
      if pyLower ms = "accepted" then
        match getAttr node.attribs "remediation_status" with
        | some rs =>
            if pyLower rs = "fixed" then Except.ok (true, none)
            else mitLoop (false, none) node.mitigations
        | none => mitLoop (false, none) node.mitigations
      else Except.ok (false, none)
  | none => Except.ok (false, none)

/-- `__xml_flaw_to_finding` lines 207-215: `false_p` is computed only
when the flaw is mitigated, and then `remediation_status` is read with
`attrib[...]` (raising `KeyError` when absent). -/
def flawFalseP (isMit : Bool) (node : FlawNode) : Except PErr Bool :=
  if isMit then do
    let rs ← reqAttr node.attribs "remediation_status"
    let rsl := pyLower rs
    Except.ok (containsSub rsl "false positive" || containsSub rsl "falsepositive")
  else Except.ok false

/-- `__xml_flaw_to_finding` lines 153-157: the references text derived
from the (already period-substituted) description. -/
def referencesOf (description : String) : String :=
  if containsSub description "References:" then
    pyReplace (strDrop description ((subIndexS description "References:").getD 0 + 13))
      ")  " ")\n"
  else "None"

/-- The record literal assembled by `__xml_flaw_to_finding` once every
attribute read has succeeded (`description` is the already-substituted
description). -/
def mkFlawFinding (useFirstSeen : Bool) (appId : String) (node : FlawNode)
    (mitText : String) (test : Test) (issueid : String) (sevI cweI : Int)
    (title cia description module ty : String) (isMit : Bool)
    (mitDate : Option DateTime) (fp : Bool) : Finding :=
  { test := test
    mitigation := mitText
    static_finding := true
    dynamic_finding := false
    unique_id_from_tool := some ("app-" ++ appId ++ "_issue-" ++ issueid)
    severity := sevMap sevI
    cwe := some cweI
    title := title
    impact := "CIA Impact: " ++ pyUpper cia
    description := description
    references :=
      referencesOf description
        ++ "\n\nVulnerable Module: " ++ module
        ++ "\nType: " ++ ty
        ++ "\nVeracode issue ID: " ++ issueid
    date := flawDate useFirstSeen test node
    is_mitigated := isMit
    mitigated := mitDate
    active := !isMit
    false_p := fp }

/-- `__xml_flaw_to_finding` (lines 129-217): the conversion shared by the
static and dynamic paths, with attribute reads in source order. -/
def flawToFinding (useFirstSeen : Bool) (appId : String) (node : FlawNode)
    (mitText : String) (test : Test) : Except PErr Finding := do
  let issueid ← reqAttr node.attribs "issueid"
  let sevS ← reqAttr node.attribs "severity"
  let sevI ← toIntE sevS
  let cweS ← reqAttr node.attribs "cweid"
  let cweI ← toIntE cweS
  let title ← reqAttr node.attribs "categoryname"
  let cia ← reqAttr node.attribs "cia_impact"
  let descRaw ← reqAttr node.attribs "description"
  let description := pyReplace descRaw ". " ".\n"
  let module ← reqAttr node.attribs "module"
  let ty ← reqAttr node.attribs "type"
  let md ← flawMitigation node
  let fp ← flawFalseP md.1 node
  Except.ok (mkFlawFinding useFirstSeen appId node mitText test issueid sevI cweI
    title cia description module ty md.1 md.2 fp)

/-- The pure tail of `__xml_static_flaw_to_finding` (lines 226-249):
`line`/`sast_source_line` are set only when both `line` and
`functionrelativelocation` consist solely of digits; `file_path` is the
plain concatenation `sourcefilepath + sourcefile`; a present
`functionprototype` sets `sast_source_object` (empty string maps to
unset); tag `["sast"]`. -/
def staticAugment (f0 : Finding) (lineS frl path : String) (node : FlawNode) : Finding :=
  let f1 := { f0 with static_finding := true, dynamic_finding := false }
  let f2 :=
    if pyIsDigit lineS && pyIsDigit frl then
      { f1 with
        line := some (digitsToNat lineS.data + digitsToNat frl.data)
        sast_source_line := some (digitsToNat lineS.data + digitsToNat frl.data) }
    else f1
  let f3 := { f2 with file_path := some path, sast_source_file_path := some path }
  let f4 := match getAttr node.attribs "functionprototype" with
    | some v => { f3 with sast_source_object := if v = "" then none else some v }
    | none => f3
  { f4 with unsaved_tags := ["sast"] }

/-- `sourcefilepath + source_file` with both read via `.get`: an absent
one makes the `+` raise `TypeError`. -/
def concatPath (node : FlawNode) : Except PErr String :=
  match getAttr node.attribs "sourcefilepath", getAttr node.attribs "sourcefile" with
  | some a, some b => Except.ok (a ++ b)
  | _, _ => Except.error PErr.typeError

/-- `__xml_static_flaw_to_finding` (lines 219-251): shared conversion,
then reads of `line` and `functionrelativelocation` with `attrib[...]`
(`KeyError` when absent), the path concatenation, and the pure static
augmentation. -/
def staticFlawToFinding (useFirstSeen : Bool) (appId : String) (node : FlawNode)
    (mitText : String) (test : Test) : Except PErr Finding := do
  let f0 ← flawToFinding useFirstSeen appId node mitText test
  let lineS ← reqAttr node.attribs "line"
  let frl ← reqAttr node.attribs "functionrelativelocation"
  let path ← concatPath node
  Except.ok (staticAugment f0 lineS frl path node)

/-- `__xml_dynamic_flaw_to_finding` (lines 253-268): dynamic-specific
augmentation; the endpoint built by the external `Endpoint.from_uri` is
modelled as the raw optional `url` attribute. -/
def dynamicFlawToFinding (useFirstSeen : Bool) (appId : String) (node : FlawNode)
    (mitText : String) (test : Test) : Except PErr Finding := do
  let f0 ← flawToFinding useFirstSeen appId node mitText test
  Except.ok { f0 with
    static_finding := false
    dynamic_finding := true
    unsaved_endpoints := [getAttr node.attribs "url"]
    unsaved_tags := ["dast"] }

/-- `__xml_sca_flaw_to_finding` lines 321-335: SCA mitigation resolution
— only when the `mitigation` attribute equals `"true"` case-insensitively
is the mitigation-history loop run. -/
def scaMitigation (node : FlawNode) : Except PErr (Bool × Option DateTime) :=
  match getAttr node.attribs "mitigation" with
  | some m =>
      if pyLower m = "true" then mitLoop (false, none) node.mitigations
      else Except.ok (false, none)
  | none => Except.ok (false, none)

/-- `__xml_sca_flaw_to_finding` (lines 278-340): conversion of one SCA
vulnerability node. The `cvss_score` attribute goes through `float(...)`
(`ValueError` on failure); `first_found_date` is optional and formats as
the string `"None"` when absent; `false_p` is never assigned. -/
def scaFlawToFinding (test : Test) (reportDate : DateTime)
    (_vendor library version : String) (node : FlawNode) : Except PErr Finding := do
  let cvssS ← reqAttr node.attribs "cvss_score"
  let _ ← (if pyFloatOk cvssS then Except.ok () else Except.error PErr.valueError)
  let sevS ← reqAttr node.attribs "severity"
  let sevI ← toIntE sevS
  let cveId ← reqAttr node.attribs "cve_id"
  let cweS ← reqAttr node.attribs "cwe_id"
  let ffd := match getAttr node.attribs "first_found_date" with
    | some v => v
    | none => "None"
  let summary ← reqAttr node.attribs "cve_summary"
  let md ← scaMitigation node
  Except.ok
    { test := test
      static_finding := true
      dynamic_finding := false
      cvssv3_score := some cvssS
      severity := sevMap sevI
      unsaved_vulnerability_ids := [cveId]
      cwe := (getCwe cweS).map Int.ofNat
      title := "Vulnerable component: " ++ library ++ ":" ++ version
      component_name := some library
      component_version := some version
      date := some reportDate
      description :=
        "This library has known vulnerabilities.\n"
          ++ "**CVE:** " ++ cveId ++ " (" ++ ffd ++ ")\n"
          ++ "CVS Score: " ++ cvssS ++ " (" ++ sevMap sevI ++ ")\n"
          ++ "Summary: \n>" ++ summary ++ "\n\n-----\n\n"
      unsaved_tags := ["sca"]
      is_mitigated := md.1
      mitigated := md.2
      active := !md.1 }

/-- `get_findings` lines 90-98: the library name for an SCA component,
overridden from a `maven:`-prefixed `library_id` when its `:`-split has
more than 2 parts. -/
def resolveLibrary (comp : ComponentNode) : Except PErr String := do
  let library ← reqAttr comp.attribs "library"
  match getAttr comp.attribs "library_id" with
  | some lid =>
      if strStartsWith lid "maven:" then
        let parts := pySplitColon lid
        if parts.length > 2 then Except.ok (parts.getD 2 library)
        else Except.ok library
      else Except.ok library
  | none => Except.ok library

/-- Lookup in the in-memory dedup dictionary (modelled as an insertion-
ordered association list, mirroring a Python `dict`). -/
def listLookup (d : List (String × Finding)) (k : String) : Option Finding :=
  (d.find? (fun p => p.1 == k)).map Prod.snd

/-- Python `dict` assignment `d[k] = v`: overwrite in place when the key
exists, append otherwise (used only by the SCA loop). -/
def dictAssign (d : List (String × Finding)) (k : String) (v : Finding) :
    List (String × Finding) :=
  if (listLookup d k).isSome then d.map (fun p => if p.1 == k then (k, v) else p)
  else d ++ [(k, v)]

/-- `get_findings` lines 62-82, one flaw: read `issueid` (`KeyError` when
absent), then convert and insert only when the key is not yet present. -/
def processFlaw (conv : FlawNode → Except PErr Finding)
    (d : List (String × Finding)) (fl : FlawNode) :
    Except PErr (List (String × Finding)) := do
  let key ← reqAttr fl.attribs "issueid"
  if (listLookup d key).isSome then Except.ok d
  else do
    let f ← conv fl
    Except.ok (d ++ [(key, f)])

/-- Left fold of `processFlaw` over one category's flaw list. -/
def processFlaws (conv : FlawNode → Except PErr Finding)
    (d : List (String × Finding)) (fls : List FlawNode) :
    Except PErr (List (String × Finding)) :=
  fls.foldlM (processFlaw conv) d

/-- `get_findings` lines 43-82, one category: build the mitigation text,
then process the static flaws, then the dynamic flaws. -/
def processCategory (useFirstSeen : Bool) (appId : String) (test : Test)
    (d : List (String × Finding)) (cat : CategoryNode) :
    Except PErr (List (String × Finding)) := do
  let mit ← mitigationTextOf cat
  let d1 ← processFlaws (fun fl => staticFlawToFinding useFirstSeen appId fl mit test)
    d cat.staticFlaws
  processFlaws (fun fl => dynamicFlawToFinding useFirstSeen appId fl mit test)
    d1 cat.dynamicFlaws

/-- The SAST/DAST portion of `get_findings`: fold over the categories. -/
def processCategories (useFirstSeen : Bool) (appId : String) (test : Test)
    (d : List (String × Finding)) (cats : List CategoryNode) :
    Except PErr (List (String × Finding)) :=
  cats.foldlM (processCategory useFirstSeen appId test) d

/-- `get_findings` lines 85-114, one component: resolve the library
name, read `vendor` and `version`, then convert each vulnerability and
store it under the next fresh key of the supplied stream (modelling
`str(uuid.uuid4())`). -/
def processComponent (test : Test) (reportDate : DateTime)
    (st : List (String × Finding) × List String) (comp : ComponentNode) :
    Except PErr (List (String × Finding) × List String) := do
  let library ← resolveLibrary comp
  let vendor ← reqAttr comp.attribs "vendor"
  let version ← reqAttr comp.attribs "version"
  comp.vulns.foldlM
    (fun (st : List (String × Finding) × List String) vuln => do
      let key := st.2.headD ""
      let f ← scaFlawToFinding test reportDate vendor library version vuln
      Except.ok (dictAssign st.1 key f, st.2.tail))
    st

/-- `get_findings` (lines 30-116): read the report-level attributes,
process the categories and then the SCA components, and return the
dictionary's values in insertion order. `uuids` supplies the random keys
drawn from `uuid.uuid4()`. -/
def getFindings (useFirstSeen : Bool) (test : Test) (report : Report)
    (uuids : List String) : Except PErr (List Finding) := do
  let appId ← reqAttr report.attribs "app_id"
  let lut ← reqAttr report.attribs "last_update_time"
  let reportDate ← parseTsE lut
  let d1 ← processCategories useFirstSeen appId test [] report.categories
  let st ← report.components.foldlM (processComponent test reportDate) (d1, uuids)
  Except.ok (st.1.map Prod.snd)

/-- First-match choice on optional findings. -/
def oOr (a : Option Finding) (b : Option Finding) : Option Finding :=
  match a with
  | some x => some x
  | none => b

/-- The conversion of the first flaw of `fls` whose `issueid` attribute
is `k`, if any. -/
def flawFirst (conv : FlawNode → Except PErr Finding) :
    List FlawNode → String → Option Finding
  | [], _ => none
  | fl :: rest, k =>
      if getAttr fl.attribs "issueid" = some k then (conv fl).toOption
      else flawFirst conv rest k

/-- The conversion of the first flaw with `issueid = k` of one category,
static flaws before dynamic ones. -/
def categoryFirst (useFirstSeen : Bool) (appId : String) (test : Test)
    (cat : CategoryNode) (k : String) : Option Finding :=
  match mitigationTextOf cat with
  | Except.error _ => none
  | Except.ok mit =>
      oOr (flawFirst (fun fl => staticFlawToFinding useFirstSeen appId fl mit test)
            cat.staticFlaws k)
        (flawFirst (fun fl => dynamicFlawToFinding useFirstSeen appId fl mit test)
            cat.dynamicFlaws k)

/-- The conversion of the first flaw with `issueid = k` in category
traversal order. -/
def categoriesFirst (useFirstSeen : Bool) (appId : String) (test : Test) :
    List CategoryNode → String → Option Finding
  | [], _ => none
  | cat :: rest, k =>
      oOr (categoryFirst useFirstSeen appId test cat k)
        (categoriesFirst useFirstSeen appId test rest k)

/-! ## Proof toolkit -/

theorem exBind_ok {α β : Type} {x : Except PErr α} {g : α → Except PErr β} {b : β}
    (h : x >>= g = Except.ok b) : ∃ a, x = Except.ok a ∧ g a = Except.ok b := by
  cases x with
  | error e => simp [Bind.bind, Except.bind] at h
  | ok a => exact ⟨a, rfl, by simpa [Bind.bind, Except.bind] using h⟩

theorem reqAttr_ok {a : List (String × String)} {k v : String} :
    reqAttr a k = Except.ok v ↔ getAttr a k = some v := by
  cases h : getAttr a k <;> simp [reqAttr, h]

theorem toIntE_ok {s : String} {n : Int} :
    toIntE s = Except.ok n ↔ pyInt? s = some n := by
  cases h : pyInt? s <;> simp [toIntE, h]

/-- Elimination form for a successful shared flaw conversion: every
required attribute was present (with `severity`/`cweid` parsing as
integers), mitigation resolution and the false-positive check succeeded,
and the result is the corresponding record literal. -/
theorem flawToFinding_ok {cfg : Bool} {appId : String} {node : FlawNode}
    {mitText : String} {test : Test} {f : Finding}
    (h : flawToFinding cfg appId node mitText test = Except.ok f) :
    ∃ issueid sevS sevI cweS cweI title cia descRaw module ty md fp,
      getAttr node.attribs "issueid" = some issueid ∧
      getAttr node.attribs "severity" = some sevS ∧ pyInt? sevS = some sevI ∧
      getAttr node.attribs "cweid" = some cweS ∧ pyInt? cweS = some cweI ∧
      getAttr node.attribs "categoryname" = some title ∧
      getAttr node.attribs "cia_impact" = some cia ∧
      getAttr node.attribs "description" = some descRaw ∧
      getAttr node.attribs "module" = some module ∧
      getAttr node.attribs "type" = some ty ∧
      flawMitigation node = Except.ok md ∧
      flawFalseP md.1 node = Except.ok fp ∧
      f = mkFlawFinding cfg appId node mitText test issueid sevI cweI title cia
        (pyReplace descRaw ". " ".\n") module ty md.1 md.2 fp := by
  unfold flawToFinding at h
  obtain ⟨issueid, h1, h⟩ := exBind_ok h
  obtain ⟨sevS, h2, h⟩ := exBind_ok h
  obtain ⟨sevI, h3, h⟩ := exBind_ok h
  obtain ⟨cweS, h4, h⟩ := exBind_ok h
  obtain ⟨cweI, h5, h⟩ := exBind_ok h
  obtain ⟨title, h6, h⟩ := exBind_ok h
  obtain ⟨cia, h7, h⟩ := exBind_ok h
  obtain ⟨descRaw, h8, h⟩ := exBind_ok h
  obtain ⟨module, h9, h⟩ := exBind_ok h
  obtain ⟨ty, h10, h⟩ := exBind_ok h
  obtain ⟨md, h11, h⟩ := exBind_ok h
  obtain ⟨fp, h12, h⟩ := exBind_ok h
  refine ⟨issueid, sevS, sevI, cweS, cweI, title, cia, descRaw, module, ty, md, fp,
    reqAttr_ok.mp h1, reqAttr_ok.mp h2, toIntE_ok.mp h3, reqAttr_ok.mp h4,
    toIntE_ok.mp h5, reqAttr_ok.mp h6, reqAttr_ok.mp h7, reqAttr_ok.mp h8,
    reqAttr_ok.mp h9, reqAttr_ok.mp h10, h11, h12, ?_⟩
  simpa [pure, Except.pure] using h.symm

theorem mkFlawFinding_date {cfg appId node mitText test issueid sevI cweI title
    cia description module ty isMit mitDate fp} :
    (mkFlawFinding cfg appId node mitText test issueid sevI cweI title cia
      description module ty isMit mitDate fp).date = flawDate cfg test node := rfl

theorem mkFlawFinding_false_p {cfg appId node mitText test issueid sevI cweI title
    cia description module ty isMit mitDate fp} :
    (mkFlawFinding cfg appId node mitText test issueid sevI cweI title cia
      description module ty isMit mitDate fp).false_p = fp := rfl

theorem mkFlawFinding_is_mitigated {cfg appId node mitText test issueid sevI cweI
    title cia description module ty isMit mitDate fp} :
    (mkFlawFinding cfg appId node mitText test issueid sevI cweI title cia
      description module ty isMit mitDate fp).is_mitigated = isMit := rfl

theorem mkFlawFinding_mitigated {cfg appId node mitText test issueid sevI cweI
    title cia description module ty isMit mitDate fp} :
    (mkFlawFinding cfg appId node mitText test issueid sevI cweI title cia
      description module ty isMit mitDate fp).mitigated = mitDate := rfl

theorem mkFlawFinding_active {cfg appId node mitText test issueid sevI cweI
    title cia description module ty isMit mitDate fp} :
    (mkFlawFinding cfg appId node mitText test issueid sevI cweI title cia
      description module ty isMit mitDate fp).active = !isMit := rfl

theorem mkFlawFinding_line {cfg appId node mitText test issueid sevI cweI
    title cia description module ty isMit mitDate fp} :
    (mkFlawFinding cfg appId node mitText test issueid sevI cweI title cia
      description module ty isMit mitDate fp).line = none := rfl

theorem mkFlawFinding_references {cfg appId node mitText test issueid sevI cweI
    title cia description module ty isMit mitDate fp} :
    (mkFlawFinding cfg appId node mitText test issueid sevI cweI title cia
      description module ty isMit mitDate fp).references =
      referencesOf description
        ++ "\n\nVulnerable Module: " ++ module
        ++ "\nType: " ++ ty
        ++ "\nVeracode issue ID: " ++ issueid := rfl

theorem mkFlawFinding_description {cfg appId node mitText test issueid sevI cweI
    title cia description module ty isMit mitDate fp} :
    (mkFlawFinding cfg appId node mitText test issueid sevI cweI title cia
      description module ty isMit mitDate fp).description = description := rfl

/-- Fields of `staticAugment` untouched by the augmentation, and the
conditional `line` assignment. -/
theorem staticAugment_proj {f0 : Finding} {lineS frl path : String} {node : FlawNode} :
    (staticAugment f0 lineS frl path node).false_p = f0.false_p ∧
    (staticAugment f0 lineS frl path node).is_mitigated = f0.is_mitigated ∧
    (staticAugment f0 lineS frl path node).date = f0.date ∧
    (staticAugment f0 lineS frl path node).line =
      (if pyIsDigit lineS && pyIsDigit frl then
        some (digitsToNat lineS.data + digitsToNat frl.data) else f0.line) := by
  unfold staticAugment
  cases hp : getAttr node.attribs "functionprototype" <;>
    by_cases hd : (pyIsDigit lineS && pyIsDigit frl) = true <;>
      simp [hd]

/-- Elimination form for a successful static conversion. -/
theorem staticFlawToFinding_ok {cfg : Bool} {appId : String} {node : FlawNode}
    {mitText : String} {test : Test} {f : Finding}
    (h : staticFlawToFinding cfg appId node mitText test = Except.ok f) :
    ∃ f0 lineS frl path,
      flawToFinding cfg appId node mitText test = Except.ok f0 ∧
      getAttr node.attribs "line" = some lineS ∧
      getAttr node.attribs "functionrelativelocation" = some frl ∧
      f = staticAugment f0 lineS frl path node := by
  unfold staticFlawToFinding at h
  obtain ⟨f0, h1, h⟩ := exBind_ok h
  obtain ⟨lineS, h2, h⟩ := exBind_ok h
  obtain ⟨frl, h3, h⟩ := exBind_ok h
  obtain ⟨path, h4, h⟩ := exBind_ok h
  exact ⟨f0, lineS, frl, path, h1, reqAttr_ok.mp h2, reqAttr_ok.mp h3,
    by simpa [pure, Except.pure] using h.symm⟩

/-- When the shared conversion succeeds but the `line` attribute is
absent, the static conversion raises `KeyError("line")`. -/
theorem staticFlaw_line_missing {cfg : Bool} {appId : String} {node : FlawNode}
    {mitText : String} {test : Test} {f0 : Finding}
    (hok : flawToFinding cfg appId node mitText test = Except.ok f0)
    (hline : getAttr node.attribs "line" = none) :
    staticFlawToFinding cfg appId node mitText test =
      Except.error (PErr.keyError "line") := by
  unfold staticFlawToFinding
  rw [hok]
  simp [Bind.bind, Except.bind, reqAttr, hline]

/-- When `line` is present but `functionrelativelocation` is absent, the
static conversion raises `KeyError("functionrelativelocation")`. -/
theorem staticFlaw_frl_missing {cfg : Bool} {appId : String} {node : FlawNode}
    {mitText : String} {test : Test} {f0 : Finding} {lineS : String}
    (hok : flawToFinding cfg appId node mitText test = Except.ok f0)
    (hline : getAttr node.attribs "line" = some lineS)
    (hfrl : getAttr node.attribs "functionrelativelocation" = none) :
    staticFlawToFinding cfg appId node mitText test =
      Except.error (PErr.keyError "functionrelativelocation") := by
  unfold staticFlawToFinding
  rw [hok]
  simp [Bind.bind, Except.bind, reqAttr, hline, hfrl]

/-- Elimination form for a successful dynamic conversion. -/
theorem dynamicFlawToFinding_ok {cfg : Bool} {appId : String} {node : FlawNode}
    {mitText : String} {test : Test} {f : Finding}
    (h : dynamicFlawToFinding cfg appId node mitText test = Except.ok f) :
    ∃ f0, flawToFinding cfg appId node mitText test = Except.ok f0 ∧
      f = { f0 with
        static_finding := false
        dynamic_finding := true
        unsaved_endpoints := [getAttr node.attribs "url"]
        unsaved_tags := ["dast"] } := by
  unfold dynamicFlawToFinding at h
  obtain ⟨f0, h1, h⟩ := exBind_ok h
  exact ⟨f0, h1, by simpa [pure, Except.pure] using h.symm⟩

/-- An SCA record never has `false_p` set: the conversion leaves the
field at its default. -/
theorem scaFlawToFinding_false_p {test : Test} {rd : DateTime}
    {vendor library version : String} {node : FlawNode} {f : Finding}
    (h : scaFlawToFinding test rd vendor library version node = Except.ok f) :
    f.false_p = false := by
  unfold scaFlawToFinding at h
  obtain ⟨cvssS, h1, h⟩ := exBind_ok h
  obtain ⟨u, h2, h⟩ := exBind_ok h
  obtain ⟨sevS, h3, h⟩ := exBind_ok h
  obtain ⟨sevI, h4, h⟩ := exBind_ok h
  obtain ⟨cveId, h5, h⟩ := exBind_ok h
  obtain ⟨cweS, h6, h⟩ := exBind_ok h
  obtain ⟨summary, h7, h⟩ := exBind_ok h
  obtain ⟨md, h8, h⟩ := exBind_ok h
  injection h with h
  subst h
  rfl

theorem parseTsE_ok {s : String} {d : DateTime} :
    parseTsE s = Except.ok d ↔ parseTs s = some d := by
  cases h : parseTs s <;> simp [parseTsE, h]

/-- A successful mitigation-history loop over a non-empty child list
reports mitigated, with the date parsed from the last child (the loop
overwrites, so the final child wins). -/
theorem mitLoop_ok_last {l : List (List (String × String))} :
    ∀ {st r}, mitLoop st l = Except.ok r → l ≠ [] →
      r.1 = true ∧ ∃ lastm ds d, l.getLast? = some lastm ∧
        getAttr lastm "date" = some ds ∧ parseTs ds = some d ∧ r.2 = some d := by
  induction l with
  | nil => intro st r h hne; exact absurd rfl hne
  | cons m rest ih =>
      intro st r h _
      unfold mitLoop at h
      obtain ⟨ds, h1, h⟩ := exBind_ok h
      obtain ⟨d, h2, h⟩ := exBind_ok h
      cases rest with
      | nil =>
          unfold mitLoop at h
          simp only [Except.ok.injEq] at h
          subst h
          exact ⟨rfl, m, ds, d, rfl, reqAttr_ok.mp h1, parseTsE_ok.mp h2, rfl⟩
      | cons m2 rest2 =>
          obtain ⟨hr1, lastm, ds2, d2, hlast, hds2, hd2, hr2⟩ := ih h (by simp)
          refine ⟨hr1, lastm, ds2, d2, ?_, hds2, hd2, hr2⟩
          simpa [List.getLast?_cons_cons] using hlast

/-- `referencesOf` written with an explicit case split on the position of
the first `"References:"` occurrence (the spec's phrasing). -/
theorem referencesOf_eq (desc : String) :
    referencesOf desc =
      (match subIndexS desc "References:" with
       | some idx => pyReplace (strDrop desc (idx + 13)) ")  " ")\n"
       | none => "None") := by
  unfold referencesOf containsSub
  cases h : subIndexS desc "References:" <;> simp [h]

/-- In any record produced by the shared flaw conversion, `false_p`
implies `is_mitigated`: `false_p` is computed only inside the
`if is_mitigated` branch. -/
theorem flaw_false_p_imp {cfg : Bool} {appId : String} {node : FlawNode}
    {mitText : String} {test : Test} {f : Finding}
    (hok : flawToFinding cfg appId node mitText test = Except.ok f)
    (hfp : f.false_p = true) : f.is_mitigated = true := by
  obtain ⟨issueid, sevS, sevI, cweS, cweI, title, cia, descRaw, module, ty, md, fp,
    _, _, _, _, _, _, _, _, _, _, hmit, hfpE, hf⟩ := flawToFinding_ok hok
  subst hf
  rw [mkFlawFinding_false_p] at hfp
  rw [mkFlawFinding_is_mitigated]
  cases hmd : md.1 with
  | true => rfl
  | false =>
      rw [hmd] at hfpE
      simp [flawFalseP] at hfpE
      rw [hfpE] at hfp
      exact absurd hfp (by decide)

/-- A category without a recommendation paragraph makes the category
conversion fail with the `AttributeError` of `None.get("text")`. -/
theorem processCategory_noPara {cfg : Bool} {appId : String} {test : Test}
    {d : List (String × Finding)} {cat : CategoryNode} (hpara : cat.paras = []) :
    processCategory cfg appId test d cat = Except.error PErr.attrError := by
  unfold processCategory mitigationTextOf firstPara
  rw [hpara]
  simp [Bind.bind, Except.bind]

/-- The error of a paragraph-less category propagates out of the whole
category fold, whatever happens in the other categories. -/
theorem processCategories_noPara (cfg : Bool) (appId : String) (test : Test)
    (cat : CategoryNode) (hpara : cat.paras = []) :
    ∀ (cats : List CategoryNode) (d : List (String × Finding)), cat ∈ cats →
      ∃ e, processCategories cfg appId test d cats = Except.error e := by
  intro cats
  induction cats with
  | nil => intro d h; cases h
  | cons c rest ih =>
      intro d hmem
      unfold processCategories
      rw [List.foldlM_cons]
      rcases List.mem_cons.mp hmem with hc | hc
      · subst hc
        rw [processCategory_noPara hpara]
        exact ⟨PErr.attrError, rfl⟩
      · cases hp : processCategory cfg appId test d c with
        | error e => exact ⟨e, by simp [hp, Bind.bind, Except.bind]⟩
        | ok d1 =>
            obtain ⟨e, he⟩ := ih d1 hc
            exact ⟨e, by simp [hp, Bind.bind, Except.bind]; exact he⟩

/-- The keys of the dedup dictionary. -/
def keysOf (d : List (String × Finding)) : List String := d.map Prod.fst

theorem listLookup_nil {k : String} : listLookup [] k = none := rfl

theorem listLookup_cons {p : String × Finding} {rest : List (String × Finding)}
    {k : String} :
    listLookup (p :: rest) k = if p.1 = k then some p.2 else listLookup rest k := by
  by_cases h : p.1 = k
  · have hb : (p.1 == k) = true := by simpa using h
    simp [listLookup, List.find?, hb, h]
  · have hb : (p.1 == k) = false := by simpa using h
    simp [listLookup, List.find?, hb, h]

theorem listLookup_append {d : List (String × Finding)} {key k : String} {f : Finding} :
    listLookup (d ++ [(key, f)]) k =
      oOr (listLookup d k) (if key = k then some f else none) := by
  induction d with
  | nil =>
      by_cases h : key = k <;> simp [listLookup_cons, listLookup_nil, oOr, h]
  | cons p rest ih =>
      by_cases h : p.1 = k <;>
        simp [List.cons_append, listLookup_cons, oOr, h, ih]

theorem listLookup_none_iff {d : List (String × Finding)} {k : String} :
    listLookup d k = none ↔ k ∉ keysOf d := by
  induction d with
  | nil => simp [listLookup_nil, keysOf]
  | cons p rest ih =>
      by_cases h : p.1 = k
      · simp [listLookup_cons, keysOf, h, ih, eq_comm]
      · simp [listLookup_cons, keysOf, h, ih, eq_comm]
        intro _
        exact fun hk => h hk.symm

theorem keys_nodup_append {d : List (String × Finding)} {key : String} {f : Finding}
    (hn : (keysOf d).Nodup) (hk : listLookup d key = none) :
    (keysOf (d ++ [(key, f)])).Nodup := by
  have hkm : key ∉ keysOf d := listLookup_none_iff.mp hk
  simp only [keysOf, List.map_append] at *
  simp [List.nodup_append, hn, hkm]

theorem flawFirst_cons {conv : FlawNode → Except PErr Finding} {fl : FlawNode}
    {rest : List FlawNode} {k : String} :
    flawFirst conv (fl :: rest) k =
      if getAttr fl.attribs "issueid" = some k then (conv fl).toOption
      else flawFirst conv rest k := rfl

/-- Invariant of the flaw-insertion fold: after a successful run the
dictionary answers each key either as it did before the fold or, for
fresh keys, with the conversion of the first flaw of the list carrying
that `issueid`; key distinctness is preserved. -/
theorem processFlaws_lookup {conv : FlawNode → Except PErr Finding}
    {fls : List FlawNode} :
    ∀ {d d'}, processFlaws conv d fls = Except.ok d' →
      (∀ k, listLookup d' k = oOr (listLookup d k) (flawFirst conv fls k)) ∧
      ((keysOf d).Nodup → (keysOf d').Nodup) := by
  induction fls with
  | nil =>
      intro d d' h
      unfold processFlaws at h
      simp only [List.foldlM_nil] at h
      have hd : d = d' := by simpa [pure, Except.pure] using h
      subst hd
      refine ⟨fun k => ?_, id⟩
      cases listLookup d k <;> simp [oOr, flawFirst]
  | cons fl rest ih =>
      intro d d' h
      unfold processFlaws at h
      rw [List.foldlM_cons] at h
      obtain ⟨d1, h1, h2⟩ := exBind_ok h
      have ihh := ih (show processFlaws conv d1 rest = Except.ok d' from h2)
      unfold processFlaw at h1
      obtain ⟨key, hk, h1⟩ := exBind_ok h1
      have hkey : getAttr fl.attribs "issueid" = some key := reqAttr_ok.mp hk
      by_cases hmem : (listLookup d key).isSome = true
      · rw [if_pos hmem] at h1
        have hd1 : d = d1 := by simpa [pure, Except.pure] using h1
        subst hd1
        refine ⟨fun k => ?_, ihh.2⟩
        rw [ihh.1 k, flawFirst_cons]
        by_cases hkk : getAttr fl.attribs "issueid" = some k
        · have hkeq : key = k := by rw [hkey] at hkk; injection hkk
          subst hkeq
          obtain ⟨v, hv⟩ := Option.isSome_iff_exists.mp hmem
          rw [hv]
          simp [oOr, hkk]
        · simp [hkk]
      · rw [if_neg hmem] at h1
        obtain ⟨fv, hconv, h1⟩ := exBind_ok h1
        have hd1 : d ++ [(key, fv)] = d1 := by simpa [pure, Except.pure] using h1
        subst hd1
        have hnone : listLookup d key = none := by
          cases hc : listLookup d key
          · rfl
          · exact absurd (by simp [hc]) hmem
        refine ⟨fun k => ?_, fun hn => ihh.2 (keys_nodup_append hn hnone)⟩
        rw [ihh.1 k, listLookup_append, flawFirst_cons]
        by_cases hkk : key = k
        · subst hkk
          rw [hnone]
          simp [oOr, hkey, hconv, Except.toOption]
        · have hcond : ¬ (getAttr fl.attribs "issueid" = some k) := by
            rw [hkey]
            intro hc
            injection hc with hc
            exact hkk hc
          rw [if_neg hkk, if_neg hcond]
          cases listLookup d k <;> simp [oOr]

/-- The `processFlaws` invariant lifted to one category (static flaws
first, then dynamic flaws). -/
theorem processCategory_lookup {cfg : Bool} {appId : String} {test : Test}
    {cat : CategoryNode} {d d' : List (String × Finding)}
    (h : processCategory cfg appId test d cat = Except.ok d') :
    (∀ k, listLookup d' k =
      oOr (listLookup d k) (categoryFirst cfg appId test cat k)) ∧
    ((keysOf d).Nodup → (keysOf d').Nodup) := by
  unfold processCategory at h
  obtain ⟨mit, hmit, h⟩ := exBind_ok h
  obtain ⟨d1, h1, h2⟩ := exBind_ok h
  have p1 := processFlaws_lookup h1
  have p2 := processFlaws_lookup h2
  refine ⟨fun k => ?_, fun hn => p2.2 (p1.2 hn)⟩
  rw [p2.1 k, p1.1 k]
  unfold categoryFirst
  rw [hmit]
  cases hlk : listLookup d k <;>
    cases hsf : flawFirst (fun fl => staticFlawToFinding cfg appId fl mit test)
      cat.staticFlaws k <;> simp [oOr, hlk, hsf]

/-- The invariant lifted to the whole category traversal. -/
theorem processCategories_lookup {cfg : Bool} {appId : String} {test : Test}
    {cats : List CategoryNode} :
    ∀ {d d'}, processCategories cfg appId test d cats = Except.ok d' →
      (∀ k, listLookup d' k =
        oOr (listLookup d k) (categoriesFirst cfg appId test cats k)) ∧
      ((keysOf d).Nodup → (keysOf d').Nodup) := by
  induction cats with
  | nil =>
      intro d d' h
      unfold processCategories at h
      simp only [List.foldlM_nil] at h
      have hd : d = d' := by simpa [pure, Except.pure] using h
      subst hd
      refine ⟨fun k => ?_, id⟩
      cases listLookup d k <;> simp [oOr, categoriesFirst]
  | cons cat rest ih =>
      intro d d' h
      unfold processCategories at h
      rw [List.foldlM_cons] at h
      obtain ⟨d1, h1, h2⟩ := exBind_ok h
      have p1 := processCategory_lookup h1
      have p2 := ih (show processCategories cfg appId test d1 rest = Except.ok d' from h2)
      refine ⟨fun k => ?_, fun hn => p2.2 (p1.2 hn)⟩
      rw [p2.1 k, p1.1 k]
      show _ = oOr (listLookup d k)
        (oOr (categoryFirst cfg appId test cat k) (categoriesFirst cfg appId test rest k))
      cases hlk : listLookup d k <;>
        cases hcf : categoryFirst cfg appId test cat k <;> simp [oOr, hlk, hcf]

/-! ## Concrete example data -/

/-- A scan run starting 2024-03-01 09:00:00. -/
def exTest : Test := ⟨⟨2024, 3, 1, 9, 0, 0⟩⟩

/-- The attributes every shared flaw conversion requires, with the
description from the spec's worked example. -/
def exFlawAttrs : List (String × String) :=
  [("issueid", "123"), ("severity", "4"), ("cweid", "79"),
   ("categoryname", "XSS"), ("cia_impact", "partial"),
   ("description", "Found. Confirmed. References: (cwe id)  see (other)  "),
   ("module", "mod.js"), ("type", "flaw")]

/-- A flaw node with only the required attributes (no date attributes,
no mitigation status, no static-location attributes). -/
def exNode1 : FlawNode := { attribs := exFlawAttrs, mitigations := [] }

/-- The conversion of `exNode1`. -/
def exF1 : Finding :=
  (flawToFinding true "ap1" exNode1 "mit" exTest).toOption.getD default

/-- A flaw whose `date_first_occurrence` does not parse. -/
def exC1Node : FlawNode :=
  { attribs := exFlawAttrs ++ [("date_first_occurrence", "not-a-date")]
    mitigations := [] }

/-- The conversion of `exC1Node`. -/
def exC1F : Finding :=
  (flawToFinding true "ap1" exC1Node "mit" exTest).toOption.getD default

/-- A flaw accepted in Veracode with remediation status `Fixed`. -/
def exC4FixedNode : FlawNode :=
  { attribs := exFlawAttrs ++ [("mitigation_status", "Accepted"),
      ("remediation_status", "Fixed")]
    mitigations := [] }

/-- The conversion of `exC4FixedNode`. -/
def exC4FixedF : Finding :=
  (flawToFinding true "ap1" exC4FixedNode "mit" exTest).toOption.getD default

/-- A flaw accepted in Veracode as a false positive, with one
mitigation-history child dated 2024-01-15 00:00:00 UTC. -/
def exC4FpNode : FlawNode :=
  { attribs := exFlawAttrs ++ [("mitigation_status", "Accepted"),
      ("remediation_status", "False Positive")]
    mitigations := [[("date", "2024-01-15 00:00:00 UTC")]] }

/-- The conversion of `exC4FpNode`. -/
def exC4FpF : Finding :=
  (flawToFinding true "ap1" exC4FpNode "mit" exTest).toOption.getD default

/-- The attributes the static augmentation reads. -/
def exSrcAttrs : List (String × String) :=
  [("line", "10"), ("functionrelativelocation", "5"),
   ("sourcefile", "a.py"), ("sourcefilepath", "src/")]

/-- A statically-convertible accepted-false-positive flaw. -/
def exC6Node : FlawNode :=
  { attribs := exFlawAttrs ++ [("mitigation_status", "Accepted"),
      ("remediation_status", "False Positive")] ++ exSrcAttrs
    mitigations := [[("date", "2024-01-15 00:00:00 UTC")]] }

/-- The static conversion of `exC6Node`. -/
def exC6SF : Finding :=
  (staticFlawToFinding true "ap1" exC6Node "mit" exTest).toOption.getD default

/-- An SCA vulnerability node with all required attributes. -/
def exScaNode : FlawNode :=
  { attribs := [("cvss_score", "7.5"), ("severity", "4"),
      ("cve_id", "CVE-2024-0001"), ("cwe_id", "CWE-79"), ("cve_summary", "bad")]
    mitigations := [] }

/-- The SCA conversion of `exScaNode`. -/
def exScaF : Finding :=
  (scaFlawToFinding exTest ⟨2024, 1, 15, 10, 0, 0⟩ "ven" "lib" "1.0"
    exScaNode).toOption.getD default

/-- A category with no `recommendations/para` child. -/
def exC7BadCat : CategoryNode := { paras := [], staticFlaws := [], dynamicFlaws := [] }

/-- A report whose single category lacks a recommendation paragraph. -/
def exC7Report : Report :=
  { attribs := [("app_id", "ap1"), ("last_update_time", "2024-03-01 09:00:00 UTC")]
    categories := [exC7BadCat]
    components := [] }

/-- An accepted flaw with no `remediation_status` attribute and one
mitigation-history child. -/
def exC9Node : FlawNode :=
  { attribs := exFlawAttrs ++ [("mitigation_status", "Accepted")]
    mitigations := [[("date", "2024-01-15 00:00:00 UTC")]] }

/-- A report containing only `exC9Node` as a static flaw. -/
def exC9Report : Report :=
  { attribs := [("app_id", "ap1"), ("last_update_time", "2024-03-01 09:00:00 UTC")]
    categories := [{ paras := [⟨some "Fix it", []⟩]
                     staticFlaws := [exC9Node]
                     dynamicFlaws := [] }]
    components := [] }

/-- An SCA component with a maven `library_id`. -/
def exMavenComp : ComponentNode :=
  { attribs := [("library", "orig"), ("library_id", "maven:com.example:foo:1.2")]
    vulns := [] }

/-- A statically-convertible flaw with issue id `123`. -/
def exC3FlawA : FlawNode :=
  { attribs := exFlawAttrs ++ exSrcAttrs, mitigations := [] }

/-- A second flaw with the same issue id `123` but different non-identity
attributes (`categoryname`, `line`). -/
def exC3FlawB : FlawNode :=
  { attribs := [("issueid", "123"), ("severity", "5"), ("cweid", "89"),
      ("categoryname", "SQLi"), ("cia_impact", "complete"),
      ("description", "Other text"), ("module", "other.js"), ("type", "flaw2"),
      ("line", "42"), ("functionrelativelocation", "1"),
      ("sourcefile", "b.py"), ("sourcefilepath", "src/")]
    mitigations := [] }

/-- One category holding both duplicate flaws. -/
def exC3Cats : List CategoryNode :=
  [{ paras := [⟨some "Fix it", []⟩]
     staticFlaws := [exC3FlawA, exC3FlawB]
     dynamicFlaws := [] }]

/-- The dedup dictionary produced from `exC3Cats`. -/
def exC3D : List (String × Finding) :=
  (processCategories true "ap1" exTest [] exC3Cats).toOption.getD []

/-! ## Claims -/

/-- C1 (counterexample): the claim says the finding date falls back to
the scan-run start time whenever the selected date attribute is absent;
but on `exNode1` (no `date_first_occurrence`, prefer-first-occurrence
enabled) the conversion succeeds with the date left unset, not equal to
`test.target_start`. -/
theorem c1_counterexample :
    Except.map (fun f => f.date) (flawToFinding true "ap1" exNode1 "mit" exTest)
      = Except.ok none ∧
    Except.map (fun f => f.date) (flawToFinding true "ap1" exNode1 "mit" exTest)
      ≠ Except.ok (some exTest.target_start) := by
  exact ⟨rfl, by decide⟩

/-- C1 (amended): the finding date comes from `date_first_occurrence`
when the prefer-first-occurrence flag is enabled and from
`date_last_occurrence` otherwise, parsed with the fixed timestamp
format; when the attribute is present, non-empty and fails to parse, the
failure is swallowed and the date falls back to the caller-supplied
scan-run start time; when the attribute is absent or empty the date is
left unset (no fallback). -/
theorem c1_date_fallback_amended (cfg : Bool) (appId : String) (node : FlawNode)
    (mitText : String) (test : Test) (f : Finding)
    (hok : flawToFinding cfg appId node mitText test = Except.ok f) :
    f.date = flawDate cfg test node ∧
    (getAttr node.attribs
        (if cfg then "date_first_occurrence" else "date_last_occurrence") = none →
      f.date = none) ∧
    (∀ v, getAttr node.attribs
        (if cfg then "date_first_occurrence" else "date_last_occurrence") = some v →
      v = "" → f.date = none) ∧
    (∀ v d, getAttr node.attribs
        (if cfg then "date_first_occurrence" else "date_last_occurrence") = some v →
      v ≠ "" → parseTs v = some d → f.date = some d) ∧
    (∀ v, getAttr node.attribs
        (if cfg then "date_first_occurrence" else "date_last_occurrence") = some v →
      v ≠ "" → parseTs v = none → f.date = some test.target_start) := by
  obtain ⟨issueid, sevS, sevI, cweS, cweI, title, cia, descRaw, module, ty, md, fp,
    _, _, _, _, _, _, _, _, _, _, _, _, hf⟩ := flawToFinding_ok hok
  subst hf
  rw [mkFlawFinding_date]
  refine ⟨rfl, ?_, ?_, ?_, ?_⟩
  · intro hnone
    cases cfg <;> simp at hnone <;> simp [flawDate, hnone]
  · intro v hv hve
    cases cfg <;> simp at hv <;> simp [flawDate, hv, hve]
  · intro v d hv hve hp
    cases cfg <;> simp at hv <;> simp [flawDate, hv, hve, hp]
  · intro v hv hve hp
    cases cfg <;> simp at hv <;> simp [flawDate, hv, hve, hp]

/-- C1 (witness): on `exC1Node`, whose `date_first_occurrence` is
`"not-a-date"`, the swallowed parse failure yields the scan-run start
time. -/
theorem c1_witness : exC1F.date = some exTest.target_start :=
  ((c1_date_fallback_amended true "ap1" exC1Node "mit" exTest exC1F rfl).2.2.2.2)
    "not-a-date" rfl (by decide) rfl

/-- C2 (counterexample): the claim says the period-space substitution on
the spec's example description yields
`"Found.\nConfirmed.\nReferences: (cwe id)\n see (other)\n "`; the
program's substitution actually keeps the double spaces (the
close-paren replacement applies only to the extracted references
substring), so the produced description differs from the claimed
string. -/
theorem c2_counterexample :
    Except.map (fun f => f.description) (flawToFinding true "ap1" exNode1 "mit" exTest)
      = Except.ok "Found.\nConfirmed.\nReferences: (cwe id)  see (other)  " ∧
    Except.map (fun f => f.description) (flawToFinding true "ap1" exNode1 "mit" exTest)
      ≠ Except.ok "Found.\nConfirmed.\nReferences: (cwe id)\n see (other)\n " := by
  exact ⟨rfl, by decide⟩

/-- C2 (amended): on the description
`"Found. Confirmed. References: (cwe id)  see (other)  "` the
period-space substitution yields
`"Found.\nConfirmed.\nReferences: (cwe id)  see (other)  "` (double
spaces preserved); references extraction begins 13 characters past the
start of the `"References:"` occurrence (index 18, so at offset 31),
giving `"cwe id)  see (other)  "`, and only that substring undergoes the
`")  "` to `")\n"` replacement, as witnessed by the produced references
field. -/
theorem c2_substitution_amended :
    pyReplace "Found. Confirmed. References: (cwe id)  see (other)  " ". " ".\n"
      = "Found.\nConfirmed.\nReferences: (cwe id)  see (other)  " ∧
    subIndexS "Found.\nConfirmed.\nReferences: (cwe id)  see (other)  " "References:"
      = some 18 ∧
    strDrop "Found.\nConfirmed.\nReferences: (cwe id)  see (other)  " (18 + 13)
      = "cwe id)  see (other)  " ∧
    Except.map (fun f => f.references) (flawToFinding true "ap1" exNode1 "mit" exTest)
      = Except.ok ("cwe id)\nsee (other)\n"
          ++ "\n\nVulnerable Module: mod.js\nType: flaw\nVeracode issue ID: 123") := by
  exact ⟨rfl, rfl, rfl, rfl⟩

/-- C3: within one report, any two SAST/DAST flaw nodes sharing an
`issueid` collapse into one output record: after a successful category
traversal starting from the empty dictionary, the keys are distinct and
each key maps to the conversion of the first flaw in traversal order
(categories in order; static before dynamic flaws within a category)
carrying that `issueid` — later occurrences, whatever their other
attributes, are dropped. -/
theorem c3_dedup_first_wins (cfg : Bool) (appId : String) (test : Test)
    (cats : List CategoryNode) (d : List (String × Finding))
    (h : processCategories cfg appId test [] cats = Except.ok d) :
    (d.map Prod.fst).Nodup ∧
    ∀ k, listLookup d k = categoriesFirst cfg appId test cats k := by
  have p := processCategories_lookup h
  refine ⟨p.2 (by simp [keysOf]), fun k => ?_⟩
  rw [p.1 k]
  rfl

/-- C3 (witness): the two duplicate flaws of `exC3Cats` yield a
dictionary with distinct keys in which key `123` holds the first flaw's
conversion. -/
theorem c3_witness :
    (exC3D.map Prod.fst).Nodup ∧
    listLookup exC3D "123" = categoriesFirst true "ap1" exTest exC3Cats "123" :=
  ⟨(c3_dedup_first_wins true "ap1" exTest exC3Cats exC3D rfl).1,
   (c3_dedup_first_wins true "ap1" exTest exC3Cats exC3D rfl).2 "123"⟩

/-- C4: for a flaw whose `mitigation_status` is `"accepted"`
case-insensitively — if `remediation_status` is `"fixed"`
case-insensitively, the record is mitigated with no date, not a false
positive, and inactive; otherwise, when mitigation-history children
exist, the record is mitigated with the date parsed from the last
child's `date` attribute, and `false_p` holds exactly when the
lowercased `remediation_status` contains `"false positive"` or
`"falsepositive"`. -/
theorem c4_mitigation_resolution (cfg : Bool) (appId : String) (node : FlawNode)
    (mitText : String) (test : Test) (f : Finding) (ms : String)
    (hok : flawToFinding cfg appId node mitText test = Except.ok f)
    (hms : getAttr node.attribs "mitigation_status" = some ms)
    (hacc : pyLower ms = "accepted") :
    (∀ rs, getAttr node.attribs "remediation_status" = some rs →
      pyLower rs = "fixed" →
      f.is_mitigated = true ∧ f.mitigated = none ∧ f.false_p = false ∧
        f.active = false) ∧
    (∀ rs, getAttr node.attribs "remediation_status" = some rs →
      pyLower rs ≠ "fixed" → node.mitigations ≠ [] →
      f.is_mitigated = true ∧ f.active = false ∧
      (∃ lastm ds d, node.mitigations.getLast? = some lastm ∧
        getAttr lastm "date" = some ds ∧ parseTs ds = some d ∧
        f.mitigated = some d) ∧
      (f.false_p = true ↔ (containsSub (pyLower rs) "false positive" = true ∨
        containsSub (pyLower rs) "falsepositive" = true))) := by
  obtain ⟨issueid, sevS, sevI, cweS, cweI, title, cia, descRaw, module, ty, md, fp,
    _, _, _, _, _, _, _, _, _, _, hmit, hfp, hf⟩ := flawToFinding_ok hok
  obtain ⟨isMit, mdate⟩ := md
  dsimp only at hfp hf
  subst hf
  constructor
  · intro rs hrs hfix
    have h1 : flawMitigation node = Except.ok (true, (none : Option DateTime)) := by
      simp [flawMitigation, hms, hacc, hrs, hfix]
    rw [hmit] at h1
    injection h1 with h1
    have h1a : isMit = true := congrArg Prod.fst h1
    have h1b : mdate = none := congrArg Prod.snd h1
    subst h1a
    subst h1b
    have h2 : flawFalseP true node =
        Except.ok (containsSub (pyLower rs) "false positive"
          || containsSub (pyLower rs) "falsepositive") := by
      simp [flawFalseP, Bind.bind, Except.bind, reqAttr, hrs]
    rw [h2] at hfp
    injection hfp with hfp
    subst hfp
    refine ⟨rfl, rfl, ?_, rfl⟩
    rw [mkFlawFinding_false_p, hfix]
    decide
  · intro rs hrs hfix hne
    have h1 : flawMitigation node = mitLoop (false, none) node.mitigations := by
      simp [flawMitigation, hms, hacc, hrs, hfix]
    rw [h1] at hmit
    obtain ⟨hr1, lastm, ds, d, hlast, hds, hd, hr2⟩ := mitLoop_ok_last hmit hne
    dsimp only at hr1 hr2
    subst hr1
    have h2 : flawFalseP true node =
        Except.ok (containsSub (pyLower rs) "false positive"
          || containsSub (pyLower rs) "falsepositive") := by
      simp [flawFalseP, Bind.bind, Except.bind, reqAttr, hrs]
    rw [h2] at hfp
    injection hfp with hfp
    subst hfp
    refine ⟨rfl, rfl,
      ⟨lastm, ds, d, hlast, hds, hd, by rw [mkFlawFinding_mitigated, hr2]⟩, ?_⟩
    rw [mkFlawFinding_false_p]
    simp [Bool.or_eq_true]

/-- C4 (witness): the spec's two worked examples — `Accepted`/`Fixed`
yields mitigated with no date, not false-positive, inactive;
`Accepted`/`False Positive` with one mitigation child yields mitigated
with the child's parsed date and `false_p` true. -/
theorem c4_witness :
    (exC4FixedF.is_mitigated = true ∧ exC4FixedF.mitigated = none ∧
      exC4FixedF.false_p = false ∧ exC4FixedF.active = false) ∧
    (exC4FpF.is_mitigated = true ∧ exC4FpF.active = false ∧
      (∃ lastm ds d, exC4FpNode.mitigations.getLast? = some lastm ∧
        getAttr lastm "date" = some ds ∧ parseTs ds = some d ∧
        exC4FpF.mitigated = some d) ∧
      (exC4FpF.false_p = true ↔
        (containsSub (pyLower "False Positive") "false positive" = true ∨
         containsSub (pyLower "False Positive") "falsepositive" = true))) :=
  ⟨(c4_mitigation_resolution true "ap1" exC4FixedNode "mit" exTest exC4FixedF
      "Accepted" rfl rfl rfl).1 "Fixed" rfl rfl,
   (c4_mitigation_resolution true "ap1" exC4FpNode "mit" exTest exC4FpF
      "Accepted" rfl rfl rfl).2 "False Positive" rfl (by decide) (by decide)⟩

/-- C5: the references field equals — if the period-substituted
description contains `"References:"`, its substring starting 13
characters after the start of that occurrence with every `")  "`
replaced by `")\n"`, else `"None"` — followed in both cases by
`"\n\nVulnerable Module: " + module + "\nType: " + type +
"\nVeracode issue ID: " + issueid`. -/
theorem c5_references_field (cfg : Bool) (appId : String) (node : FlawNode)
    (mitText : String) (test : Test) (f : Finding) (d m t i : String)
    (hok : flawToFinding cfg appId node mitText test = Except.ok f)
    (hd : getAttr node.attribs "description" = some d)
    (hm : getAttr node.attribs "module" = some m)
    (ht : getAttr node.attribs "type" = some t)
    (hi : getAttr node.attribs "issueid" = some i) :
    f.references =
      (match subIndexS (pyReplace d ". " ".\n") "References:" with
       | some idx =>
           pyReplace (strDrop (pyReplace d ". " ".\n") (idx + 13)) ")  " ")\n"
       | none => "None")
      ++ "\n\nVulnerable Module: " ++ m ++ "\nType: " ++ t
      ++ "\nVeracode issue ID: " ++ i := by
  obtain ⟨issueid, sevS, sevI, cweS, cweI, title, cia, descRaw, module, ty, md, fp,
    hi2, _, _, _, _, _, _, hd2, hm2, ht2, _, _, hf⟩ := flawToFinding_ok hok
  subst hf
  rw [hd] at hd2; injection hd2 with hd2
  rw [hm] at hm2; injection hm2 with hm2
  rw [ht] at ht2; injection ht2 with ht2
  rw [hi] at hi2; injection hi2 with hi2
  subst hd2; subst hm2; subst ht2; subst hi2
  rw [mkFlawFinding_references, referencesOf_eq]

/-- C5 (witness): the references field of the conversion of `exNode1`,
via the theorem at its concrete attributes. -/
theorem c5_witness :
    exF1.references =
      (match subIndexS (pyReplace "Found. Confirmed. References: (cwe id)  see (other)  "
          ". " ".\n") "References:" with
       | some idx =>
           pyReplace (strDrop (pyReplace "Found. Confirmed. References: (cwe id)  see (other)  "
             ". " ".\n") (idx + 13)) ")  " ")\n"
       | none => "None")
      ++ "\n\nVulnerable Module: " ++ "mod.js" ++ "\nType: " ++ "flaw"
      ++ "\nVeracode issue ID: " ++ "123" :=
  c5_references_field true "ap1" exNode1 "mit" exTest exF1
    "Found. Confirmed. References: (cwe id)  see (other)  " "mod.js" "flaw" "123"
    rfl rfl rfl rfl rfl

/-- C6: in every record produced by a conversion (static, dynamic,
shared SAST/DAST core, or SCA), `false_p` is true only if `is_mitigated`
is true; and `false_p` is never set for SCA records. -/
theorem c6_false_p_only_if_mitigated :
    (∀ (cfg : Bool) (appId : String) (node : FlawNode) (mitText : String)
      (test : Test) (f : Finding),
      staticFlawToFinding cfg appId node mitText test = Except.ok f →
      f.false_p = true → f.is_mitigated = true) ∧
    (∀ (cfg : Bool) (appId : String) (node : FlawNode) (mitText : String)
      (test : Test) (f : Finding),
      dynamicFlawToFinding cfg appId node mitText test = Except.ok f →
      f.false_p = true → f.is_mitigated = true) ∧
    (∀ (cfg : Bool) (appId : String) (node : FlawNode) (mitText : String)
      (test : Test) (f : Finding),
      flawToFinding cfg appId node mitText test = Except.ok f →
      f.false_p = true → f.is_mitigated = true) ∧
    (∀ (test : Test) (rd : DateTime) (vendor library version : String)
      (node : FlawNode) (f : Finding),
      scaFlawToFinding test rd vendor library version node = Except.ok f →
      f.false_p = false) := by
  refine ⟨?_, ?_, ?_, ?_⟩
  · intro cfg appId node mitText test f h hfp
    obtain ⟨f0, lineS, frl, path, hok, _, _, hf⟩ := staticFlawToFinding_ok h
    subst hf
    rw [staticAugment_proj.1] at hfp
    rw [staticAugment_proj.2.1]
    exact flaw_false_p_imp hok hfp
  · intro cfg appId node mitText test f h hfp
    obtain ⟨f0, hok, hf⟩ := dynamicFlawToFinding_ok h
    subst hf
    have hfp0 : f0.false_p = true := hfp
    have hm0 : f0.is_mitigated = true := flaw_false_p_imp hok hfp0
    exact hm0
  · intro cfg appId node mitText test f h hfp
    exact flaw_false_p_imp h hfp
  · intro test rd vendor library version node f h
    exact scaFlawToFinding_false_p h

/-- C6 (witness): a mitigated false-positive static record has
`is_mitigated` true, and a concrete SCA record has `false_p` false. -/
theorem c6_witness : exC6SF.is_mitigated = true ∧ exScaF.false_p = false :=
  ⟨c6_false_p_only_if_mitigated.1 true "ap1" exC6Node "mit" exTest exC6SF rfl rfl,
   c6_false_p_only_if_mitigated.2.2.2 exTest ⟨2024, 1, 15, 10, 0, 0⟩
     "ven" "lib" "1.0" exScaNode exScaF rfl⟩

/-- C7: a category node without a `recommendations/para` child makes the
whole conversion fail loudly — the error propagates out of
`get_findings` instead of silently defaulting the mitigation text. -/
theorem c7_missing_recommendation_fails (cfg : Bool) (test : Test) (report : Report)
    (uuids : List String) (cat : CategoryNode)
    (hmem : cat ∈ report.categories) (hpara : cat.paras = []) :
    ∃ e, getFindings cfg test report uuids = Except.error e := by
  unfold getFindings
  cases h1 : reqAttr report.attribs "app_id" with
  | error e => exact ⟨e, by simp [h1, Bind.bind, Except.bind]⟩
  | ok appId =>
      cases h2 : reqAttr report.attribs "last_update_time" with
      | error e => exact ⟨e, by simp [h1, h2, Bind.bind, Except.bind]⟩
      | ok lut =>
          cases h3 : parseTsE lut with
          | error e => exact ⟨e, by simp [h1, h2, h3, Bind.bind, Except.bind]⟩
          | ok rd =>
              obtain ⟨e, he⟩ :=
                processCategories_noPara cfg appId test cat hpara
                  report.categories [] hmem
              exact ⟨e, by simp [h1, h2, h3, he, Bind.bind, Except.bind]⟩

/-- C7 (witness): the conversion of `exC7Report`, whose only category
has no recommendation paragraph, fails. -/
theorem c7_witness : ∃ e, getFindings false exTest exC7Report [] = Except.error e :=
  c7_missing_recommendation_fails false exTest exC7Report [] exC7BadCat
    (by decide) rfl

/-- C8: for an SCA component, when a `library_id` attribute exists, the
library name is the part at index 2 of its `:`-split whenever the id
starts with `"maven:"` and the split has more than 2 parts, and the
`library` attribute unchanged otherwise; in particular
`"maven:com.example:foo:1.2"` yields `"foo"`. -/
theorem c8_sca_library_resolution (comp : ComponentNode) (library : String)
    (hlib : getAttr comp.attribs "library" = some library) :
    (resolveLibrary comp = Except.ok
      (match getAttr comp.attribs "library_id" with
       | some lid =>
           if strStartsWith lid "maven:" = true ∧ (pySplitColon lid).length > 2 then
             (pySplitColon lid).getD 2 library
           else library
       | none => library))
    ∧ pySplitColon "maven:com.example:foo:1.2" = ["maven", "com.example", "foo", "1.2"]
    ∧ resolveLibrary exMavenComp = Except.ok "foo" := by
  refine ⟨?_, by decide, by rfl⟩
  unfold resolveLibrary
  cases hlid : getAttr comp.attribs "library_id" with
  | none => simp [Bind.bind, Except.bind, reqAttr, hlib]
  | some lid =>
      by_cases h1 : strStartsWith lid "maven:" = true <;>
        by_cases h2 : (pySplitColon lid).length > 2 <;>
          simp [Bind.bind, Except.bind, reqAttr, hlib, h1, h2]

/-- C8 (witness): the maven component `exMavenComp` resolves to `"foo"`. -/
theorem c8_witness : resolveLibrary exMavenComp = Except.ok "foo" :=
  (c8_sca_library_resolution exMavenComp "orig" rfl).2.2

/-- C9: the key-lookup failure on `remediation_status` during the
`false_p` computation is reachable — on `exC9Node` (accepted, no
`remediation_status`, one mitigation child) the conversion raises
`KeyError("remediation_status")`, and a report containing the node
aborts wholesale with that error. -/
theorem c9_remediation_keyerror_reachable :
    getAttr exC9Node.attribs "mitigation_status" = some "Accepted" ∧
    getAttr exC9Node.attribs "remediation_status" = none ∧
    exC9Node.mitigations ≠ [] ∧
    flawToFinding true "ap1" exC9Node "mit" exTest =
      Except.error (PErr.keyError "remediation_status") ∧
    getFindings true exTest exC9Report [] =
      Except.error (PErr.keyError "remediation_status") := by
  exact ⟨rfl, rfl, by simp [exC9Node], rfl, rfl⟩

/-- C10: the static conversion reads `line` and
`functionrelativelocation` as required attributes — absence of either
raises the corresponding `KeyError` and aborts — and in a produced
record `line` stays unset only when both attributes are present but not
both composed solely of digits. -/
theorem c10_line_attrs_required (cfg : Bool) (appId : String) (node : FlawNode)
    (mitText : String) (test : Test) (f0 : Finding)
    (hok : flawToFinding cfg appId node mitText test = Except.ok f0) :
    (getAttr node.attribs "line" = none →
      staticFlawToFinding cfg appId node mitText test =
        Except.error (PErr.keyError "line")) ∧
    (∀ l, getAttr node.attribs "line" = some l →
      getAttr node.attribs "functionrelativelocation" = none →
      staticFlawToFinding cfg appId node mitText test =
        Except.error (PErr.keyError "functionrelativelocation")) ∧
    (∀ f, staticFlawToFinding cfg appId node mitText test = Except.ok f →
      f.line = none →
      ∃ l r, getAttr node.attribs "line" = some l ∧
        getAttr node.attribs "functionrelativelocation" = some r ∧
        ¬(pyIsDigit l = true ∧ pyIsDigit r = true)) := by
  refine ⟨fun hline => staticFlaw_line_missing hok hline,
    fun l hline hfrl => staticFlaw_frl_missing hok hline hfrl, ?_⟩
  intro f h hnone
  obtain ⟨f1, lineS, frl, path, hok1, hline, hfrl, hf⟩ := staticFlawToFinding_ok h
  subst hf
  rw [staticAugment_proj.2.2.2] at hnone
  refine ⟨lineS, frl, hline, hfrl, ?_⟩
  by_cases hd : (pyIsDigit lineS && pyIsDigit frl) = true
  · rw [if_pos hd] at hnone
    exact absurd hnone (by simp)
  · intro hcon
    exact hd (by simp [hcon.1, hcon.2])

/-- C10 (witness): on `exNode1`, which lacks the `line` attribute, the
static conversion raises `KeyError("line")`. -/
theorem c10_witness :
    staticFlawToFinding true "ap1" exNode1 "mit" exTest =
      Except.error (PErr.keyError "line") :=
  (c10_line_attrs_required true "ap1" exNode1 "mit" exTest exF1 rfl).1 rfl

end Veracode
